import Mathlib

/-!
# 2geom: binomial coefficients (`choose.h`) and the path intersection graph

Shallow embedding of `2geom/choose.h`, of the interface declared in
`2geom/intersection-graph.h` and of the constant `EPSILON` of `2geom/coord.h`.

## Machine integers

`int` and `unsigned` are 32 bits wide.  An `int` value is an `Int` in
`[-2^31, 2^31)`, an `unsigned` value is a `Nat` below `2^32`.

* The conversion `unsigned → int` reduces modulo `2^32` into the signed range
  (`wrapInt`).
* An `int` sum or difference that leaves the range is undefined in C++; here it
  takes its two's-complement value (`wrapInt` again).  The theorems say where
  this matters.
* The conversion `int → unsigned` and `unsigned` arithmetic reduce modulo `2^32`.
* Division by zero has no result (`none`).

The value type `T` of the templates is instantiated twice: with the exact
integers (`Int`, truncating division) and with a 32-bit unsigned type
(`Nat` modulo `2^32`, suffix `_u32`).
-/

namespace Geom

/-! ## Machine integer helpers -/

/-- Reduce an integer into the range of a 32-bit `int`. -/
def wrapInt (x : Int) : Int := (x + 2147483648) % 4294967296 - 2147483648

/-- The `int` sum `a + b`. -/
def intAdd (a b : Int) : Int := wrapInt (a + b)

/-- The `int` difference `a - b`. -/
def intSub (a b : Int) : Int := wrapInt (a - b)

/-- Conversion `unsigned → int`. -/
def toInt (u : Nat) : Int := wrapInt (u : Int)

/-- Conversion `int → unsigned`. -/
def toUnsigned (x : Int) : Nat := (x % 4294967296).toNat

/-- The `unsigned` difference `a - b`. -/
def unsignedSub (a b : Nat) : Nat := (a + 4294967296 - b % 4294967296) % 4294967296

/-- Division of the exact value type by an `int`: truncating, undefined at zero. -/
def divExact (a d : Int) : Option Int := if d = 0 then none else some (a.tdiv d)

/-- Division of 32-bit unsigned values, undefined at zero. -/
def divU32 (a d : Nat) : Option Nat := if d = 0 then none else some (a / d)

/-! ## `choose.h` over the exact integers -/

/-- The assignment `b = b * (n + 1) / (n + 1 - k)` of `binomial_increment_n`. -/
def binomial_increment_n (b n k : Int) : Option Int :=
  divExact (b * intAdd n 1) (intSub (intAdd n 1) k)

/-- The assignment `b = b * (n - k) / n` of `binomial_decrement_n`. -/
def binomial_decrement_n (b n k : Int) : Option Int :=
  divExact (b * intSub n k) n

/-- The assignment `b = b * (n - k) / (k + 1)` of `binomial_increment_k`. -/
def binomial_increment_k (b n k : Int) : Option Int :=
  divExact (b * intSub n k) (intAdd k 1)

/-- The assignment `b = b * k / (n + 1 - k)` of `binomial_decrement_k`. -/
def binomial_decrement_k (b n k : Int) : Option Int :=
  divExact (b * k) (intSub (intAdd n 1) k)

/-- The loop `for (int i = 0; i < max; i++) binomial_increment_k(b, n, i);` of
`choose`, started at `i` with accumulator `b`; the first argument bounds the
number of remaining iterations. -/
def chooseLoop (n max : Int) : Nat → Int → Int → Option Int
  | 0, _, b => some b
  | r + 1, i, b =>
    if i < max then
      (binomial_increment_k b n i).bind fun b1 => chooseLoop n max r (intAdd i 1) b1
    else some b

/-- The function `choose<T>(unsigned n, unsigned k)` for the exact integers.  The `unsigned`
argument `n` is converted to `int` when handed to `binomial_increment_k`. -/
def choose (n k : Nat) : Option Int :=
  if k > n then some 0
  else
    let max : Int := toInt (min k (unsignedSub n k))
    chooseLoop (toInt n) max max.toNat 0 1

/-! ## `choose.h` over a 32-bit unsigned value type -/

/-- The assignment `b = b * (n - k) / (k + 1)` with `b` a 32-bit unsigned value: both `int`
operands are converted to `unsigned`, the product is taken modulo `2^32`. -/
def binomial_increment_k_u32 (b : Nat) (n k : Int) : Option Nat :=
  divU32 ((b * toUnsigned (intSub n k)) % 4294967296) (toUnsigned (intAdd k 1))

/-- The loop of `choose` for a 32-bit unsigned value type. -/
def chooseLoop_u32 (n max : Int) : Nat → Int → Nat → Option Nat
  | 0, _, b => some b
  | r + 1, i, b =>
    if i < max then
      (binomial_increment_k_u32 b n i).bind fun b1 => chooseLoop_u32 n max r (intAdd i 1) b1
    else some b

/-- The function `choose<T>(unsigned n, unsigned k)` for a 32-bit unsigned value type. -/
def choose_u32 (n k : Nat) : Option Nat :=
  if k > n then some 0
  else
    let max : Int := toInt (min k (unsignedSub n k))
    chooseLoop_u32 (toInt n) max max.toNat 0 1

/-! ## `BinomialCoefficient` over the exact integers -/

/-- The class `BinomialCoefficient<ValueType>`: the `int const n` member and the
vector of coefficients. -/
structure BinomialCoefficient where
  n : Int
  coefficients : List Int
  deriving DecidableEq, Repr

/-- The constructor loop
`for (int i = 0; i < n / 2; i++) { binomial_increment_k(b, n, i); coefficients.emplace_back(b); }`. -/
def BinomialCoefficient.fill (n : Int) : Nat → Int → Int → List Int → Option (List Int)
  | 0, _, _, cs => some cs
  | r + 1, i, b, cs =>
    if i < n.tdiv 2 then
      (binomial_increment_k b n i).bind fun b1 =>
        BinomialCoefficient.fill n r (intAdd i 1) b1 (cs ++ [b1])
    else some cs

/-- The constructor `BinomialCoefficient(unsigned int _n)`.  The member `n` is an
`int`; `reserve(n / 2 + 1)` throws `std::length_error` when its `int` argument
is negative (it converts to a size beyond `max_size()`), in which case no
object is constructed. -/
def BinomialCoefficient.construct (_n : Nat) : Option BinomialCoefficient :=
  let n := toInt _n
  if intAdd (n.tdiv 2) 1 < 0 then none
  else
    (BinomialCoefficient.fill n (n.tdiv 2).toNat 0 1 [1]).map fun cs =>
      { n := n, coefficients := cs }

/-- The member `degree()`: the `int` member converted to `unsigned`. -/
def BinomialCoefficient.degree (c : BinomialCoefficient) : Nat := toUnsigned c.n

/-- The member `size()`. -/
def BinomialCoefficient.size (c : BinomialCoefficient) : Nat :=
  (c.degree + 1) % 4294967296

/-- The member `operator[](unsigned k)`: `coefficients[std::min(k, n - k)]`, with
`n - k` an `unsigned` difference; an index past the end has no result. -/
def BinomialCoefficient.get (c : BinomialCoefficient) (k : Nat) : Option Int :=
  c.coefficients[min k (unsignedSub (toUnsigned c.n) k)]?

/-- The first `j` entries of row `n` of Pascal's triangle. -/
def pascalRow (n j : Nat) : List Int := (List.range j).map fun i => (n.choose i : Int)

/-! ## The path intersection graph (`intersection-graph.h`)

The header declares the data model and the public interface; of the member
functions only `windingPoints`, `valid` and the `PathData` constructor have a
body there.  The remaining members are modelled from the specification, each
marked as such.  Coordinates (`double`), points and paths are type parameters:
nothing below computes with them.  The vertices own their list hooks in the
source; here a per-contour list and the list of unprocessed vertices hold
indices into the vertex pool `_xs`, and the `neighbor` pointer is such an index.
Every member function takes the graph and returns its result together with the
graph it leaves behind.
-/

/-- The enumeration `InOutFlag`. -/
inductive InOutFlag
  | INSIDE
  | OUTSIDE
  | BOTH
  deriving DecidableEq, Repr

/-- Modelled from the spec: the position type `PathVectorTime` of a vertex, which
the header uses without declaring it: contour index within the operand, segment
index, parameter time (§3). -/
structure PathVectorTime (Coord : Type) where
  path_index : Nat
  curve_index : Nat
  t : Coord
  deriving DecidableEq, Repr

/-- The struct `IntersectionVertex`. -/
structure IntersectionVertex (Coord Point : Type) where
  pos : PathVectorTime Coord
  p : Point
  neighbor : Nat
  next_edge : InOutFlag
  which : Nat
  defective : Bool
  deriving DecidableEq, Repr

/-- The struct `PathData`. -/
structure PathData where
  xlist : List Nat
  path_index : Nat
  which : Int
  status : InOutFlag
  deriving DecidableEq, Repr

/-- The constructor `PathData(int w, std::size_t pi)`. -/
def PathData.init (w : Int) (pi : Nat) : PathData :=
  { xlist := [], path_index := pi, which := w, status := InOutFlag.BOTH }

/-- The data members of `PathIntersectionGraph`; the two-element arrays `_pv` and
`_components` are pairs (operand A first). -/
structure PathIntersectionGraph (Path Coord Point : Type) where
  _pv : List Path × List Path
  _xs : List (IntersectionVertex Coord Point)
  _components : List PathData × List PathData
  _ulist : List Nat
  _graph_valid : Bool
  _winding_points : List Point
  deriving DecidableEq, Repr

/-- Modelled from the spec: the curve collaborator of §6, as far as the tracer
uses it: trimming a contour between two parameter positions (the portion runs
in the direction of increasing time from the first position to the second),
reversing a portion, and joining the consecutive portions of one walk into a
closed contour. -/
structure Curves (Path Coord : Type) where
  portion : Path → PathVectorTime Coord → PathVectorTime Coord → Path
  reversed : Path → Path
  closed : List Path → Path

namespace PathIntersectionGraph

variable {Path Coord Point : Type}

/-- The operand `_pv[w]`. -/
def pv (g : PathIntersectionGraph Path Coord Point) (w : Nat) : List Path :=
  if w = 0 then g._pv.1 else g._pv.2

/-- The contour records `_components[w]`. -/
def components (g : PathIntersectionGraph Path Coord Point) (w : Nat) : List PathData :=
  if w = 0 then g._components.1 else g._components.2

/-- The body of `windingPoints() const`. -/
def windingPoints (g : PathIntersectionGraph Path Coord Point) :
    List Point × PathIntersectionGraph Path Coord Point :=
  (g._winding_points, g)

/-- The body of `valid() const`. -/
def valid (g : PathIntersectionGraph Path Coord Point) :
    Bool × PathIntersectionGraph Path Coord Point :=
  (g._graph_valid, g)

/-- Modelled from the spec: `size() const` (declared only), "the count of true
crossings" (§4.5): per contour record of operand A, the vertices of its list that
are not defective. -/
def size (g : PathIntersectionGraph Path Coord Point) :
    Nat × PathIntersectionGraph Path Coord Point :=
  ((g._components.1.map fun c =>
      (c.xlist.filter fun i =>
        match g._xs[i]? with
        | some v => v.defective == false
        | none => false).length).sum, g)

/-- Modelled from the spec: `intersectionPoints(bool defective) const` (declared
only), "the geometric points of either true crossings or defective ones" (§4.5):
over the contour records of operand A and the vertices of each list, the point
of every vertex whose flag equals the argument. -/
def intersectionPoints (g : PathIntersectionGraph Path Coord Point) (defective : Bool) :
    List Point × PathIntersectionGraph Path Coord Point :=
  (g._components.1.flatMap fun c =>
      c.xlist.filterMap fun i =>
        match g._xs[i]? with
        | some v => if v.defective == defective then some v.p else none
        | none => none, g)

/-- Modelled from the spec: the flat pool of vertices a trace pass starts from
(§3): every vertex held in a per-contour list, operand A first. -/
def vertexIndices (g : PathIntersectionGraph Path Coord Point) : List Nat :=
  (g._components.1 ++ g._components.2).flatMap PathData.xlist

/-- Modelled from the spec: the per-contour list holding vertex `v` (§3). -/
def xlistOf (g : PathIntersectionGraph Path Coord Point)
    (v : IntersectionVertex Coord Point) : List Nat :=
  match (g.components v.which).find? fun c => c.path_index == v.pos.path_index with
  | some c => c.xlist
  | none => []

/-- Modelled from the spec: the vertex after `v` in a per-contour list, in
increasing parameter order and wrapping around (§3). -/
def cyclicNext (l : List Nat) (v : Nat) : Nat :=
  match l.dropWhile fun x => x != v with
  | _ :: y :: _ => y
  | _ => l.headD v

/-- Modelled from the spec: the vertex before `v` in a per-contour list, wrapping
around (§3). -/
def cyclicPrev (l : List Nat) (v : Nat) : Nat := cyclicNext l.reverse v

/-- Modelled from the spec: the active predicate of §4.4: an edge of operand
`which` with classification `flag` is excluded when the operator asks for the
other side of the opposing operand.  An edge recorded as `BOTH` is not
excluded. -/
def edgeExcluded (enter_a enter_b : Bool) (which : Nat) (flag : InOutFlag) : Bool :=
  match flag with
  | InOutFlag.INSIDE => !(if which = 0 then enter_a else enter_b)
  | InOutFlag.OUTSIDE => if which = 0 then enter_a else enter_b
  | InOutFlag.BOTH => false

/-- Modelled from the spec: the classification of the edge about to be traversed
when the walk stands at vertex `i` (with record `v`): in the forward direction
the edge that leaves `i`, which `i` itself carries (§3); against the direction
the edge that arrives at `i`, carried by the vertex before it. -/
def edgeAhead (g : PathIntersectionGraph Path Coord Point) (i : Nat)
    (v : IntersectionVertex Coord Point) (reverse : Bool) : InOutFlag :=
  if reverse then
    match g._xs[cyclicPrev (g.xlistOf v) i]? with
    | some w => w.next_edge
    | none => InOutFlag.BOTH
  else v.next_edge

/-- Modelled from the spec: where the walk of §4.4 leaves vertex `cur`, reached in
direction `reverse`: along the current contour when the edge about to be
traversed is not excluded; otherwise from the neighbor vertex, forward when the
edge leaving it is not excluded, else against the direction along the edge
arriving at it when that one is not excluded.  No result when every edge is
excluded.  The answer is the vertex left, its record and the direction. -/
def chooseEdge (g : PathIntersectionGraph Path Coord Point) (enter_a enter_b : Bool)
    (cur : Nat) (v : IntersectionVertex Coord Point) (reverse : Bool) :
    Option (Nat × IntersectionVertex Coord Point × Bool) :=
  if !edgeExcluded enter_a enter_b v.which (g.edgeAhead cur v reverse) then
    some (cur, v, reverse)
  else
    match g._xs[v.neighbor]? with
    | none => none
    | some n =>
      if !edgeExcluded enter_a enter_b n.which (g.edgeAhead v.neighbor n false) then
        some (v.neighbor, n, false)
      else if !edgeExcluded enter_a enter_b n.which (g.edgeAhead v.neighbor n true) then
        some (v.neighbor, n, true)
      else none

/-- Modelled from the spec: one walk of §4.4, from vertex `cur` of the cycle
begun at `start`: choose the edge to leave by (`chooseEdge`: never an excluded
one), walk to the next vertex of that contour taking the curve between them,
mark the vertices met as traced, and stop on returning to the starting point.
A portion walked against the direction is the reversed portion from the vertex
reached to the vertex left.  The first argument bounds the number of steps by
the size of the pool. -/
def traceCycle (curves : Curves Path Coord) (g : PathIntersectionGraph Path Coord Point)
    (enter_a enter_b : Bool) (start : Nat) :
    Nat → Nat → Bool → List Nat → List Path → List Path × List Nat
  | 0, _, _, u, acc => (acc, u)
  | fuel + 1, cur, reverse, u, acc =>
    match g._xs[cur]? with
    | none => (acc, u.erase cur)
    | some v =>
      match g.chooseEdge enter_a enter_b cur v reverse with
      | none => (acc, (u.erase cur).erase v.neighbor)
      | some (cur1, v1, rev) =>
        let nxt :=
          if rev then cyclicPrev (g.xlistOf v1) cur1 else cyclicNext (g.xlistOf v1) cur1
        let piece : List Path :=
          match (g.pv v1.which)[v1.pos.path_index]?, g._xs[nxt]? with
          | some path, some v2 =>
            if rev then [curves.reversed (curves.portion path v2.pos v1.pos)]
            else [curves.portion path v1.pos v2.pos]
          | _, _ => []
        let u1 := ((u.erase cur).erase cur1).erase nxt
        let back : Bool :=
          nxt == start ||
            (match g._xs[nxt]? with
             | some v2 => v2.neighbor == start
             | none => true)
        if back then (acc ++ piece, u1)
        else traceCycle curves g enter_a enter_b start fuel nxt rev u1 (acc ++ piece)

/-- Modelled from the spec: the outer loop of §4.4: pick a vertex not yet
traced, walk its cycle starting forward, emit one closed contour, until none is
left.  Every
round removes the picked vertex, so the first argument, the number of vertices,
bounds the rounds. -/
def traceAll (curves : Curves Path Coord) (g : PathIntersectionGraph Path Coord Point)
    (enter_a enter_b : Bool) : Nat → List Nat → List Path → List Path × List Nat
  | 0, u, result => (result, u)
  | fuel + 1, u, result =>
    match u with
    | [] => (result, [])
    | start :: rest =>
      let cyc := traceCycle curves g enter_a enter_b start (g._xs.length + 1) start false rest []
      traceAll curves g enter_a enter_b fuel cyc.2 (result ++ [curves.closed cyc.1])

/-- Modelled from the spec: `_getResult(bool enter_a, bool enter_b)` (declared
only), the tracer of §4.4.  The pass starts from its own list of unprocessed
vertices, which it leaves in `_ulist`; no other member is written. -/
def _getResult (curves : Curves Path Coord) (g : PathIntersectionGraph Path Coord Point)
    (enter_a enter_b : Bool) : List Path × PathIntersectionGraph Path Coord Point :=
  let tr := traceAll curves g enter_a enter_b g.vertexIndices.length g.vertexIndices []
  (tr.1, { g with _ulist := tr.2 })

/-- Modelled from the spec: the membership condition of a whole contour (§4.4):
its precomputed status against the side the operator asks for. -/
def statusSatisfies (status : InOutFlag) (inside : Bool) : Bool :=
  match status with
  | InOutFlag.INSIDE => inside
  | InOutFlag.OUTSIDE => !inside
  | InOutFlag.BOTH => false

/-- Modelled from the spec:
`_handleNonintersectingPaths(PathVector &result, unsigned which, bool inside)`
(declared only): append to `result` every contour of operand `which` that
carries no intersection and whose status satisfies the condition (§4.4). -/
def _handleNonintersectingPaths (g : PathIntersectionGraph Path Coord Point)
    (result : List Path) (which : Nat) (inside : Bool) : List Path :=
  result ++ (g.components which).filterMap fun c =>
    if c.xlist.isEmpty && statusSatisfies c.status inside then (g.pv which)[c.path_index]?
    else none

/-- Modelled from the spec: `getUnion()` (declared only): trace the edges outside
the other operand, then the whole contours outside it (§4.4, §4.5). -/
def getUnion (curves : Curves Path Coord) (g : PathIntersectionGraph Path Coord Point) :
    List Path × PathIntersectionGraph Path Coord Point :=
  let r := g._getResult curves false false
  (r.2._handleNonintersectingPaths (r.2._handleNonintersectingPaths r.1 0 false) 1 false, r.2)

/-- Modelled from the spec: `getIntersection()` (declared only): the dual of the
union, edges and whole contours inside the other operand. -/
def getIntersection (curves : Curves Path Coord) (g : PathIntersectionGraph Path Coord Point) :
    List Path × PathIntersectionGraph Path Coord Point :=
  let r := g._getResult curves true true
  (r.2._handleNonintersectingPaths (r.2._handleNonintersectingPaths r.1 0 true) 1 true, r.2)

/-- Modelled from the spec: `getAminusB()` (declared only): A outside B combined
with B inside A. -/
def getAminusB (curves : Curves Path Coord) (g : PathIntersectionGraph Path Coord Point) :
    List Path × PathIntersectionGraph Path Coord Point :=
  let r := g._getResult curves false true
  (r.2._handleNonintersectingPaths (r.2._handleNonintersectingPaths r.1 0 false) 1 true, r.2)

/-- Modelled from the spec: `getBminusA()` (declared only): B outside A combined
with A inside B. -/
def getBminusA (curves : Curves Path Coord) (g : PathIntersectionGraph Path Coord Point) :
    List Path × PathIntersectionGraph Path Coord Point :=
  let r := g._getResult curves true false
  (r.2._handleNonintersectingPaths (r.2._handleNonintersectingPaths r.1 1 false) 0 true, r.2)

/-- Modelled from the spec: `getXOR()` (declared only): the two asymmetric
differences, one after the other. -/
def getXOR (curves : Curves Path Coord) (g : PathIntersectionGraph Path Coord Point) :
    List Path × PathIntersectionGraph Path Coord Point :=
  let r1 := g.getAminusB curves
  let r2 := r1.2.getBminusA curves
  (r1.1 ++ r2.1, r2.2)

/-- The contour records of an operand of `n` contours none of which carries a
vertex and all of which are `OUTSIDE`. -/
def outsideRecords (w : Int) (n : Nat) : List PathData :=
  (List.range n).map fun i => { PathData.init w i with status := InOutFlag.OUTSIDE }

/-- The state the construction reaches for operands `a` and `b` without geometric
overlap (`constructorBody_builtFromDisjoint`): the operands stored, an empty
pool, one record per contour, each without vertices and `OUTSIDE`. -/
def BuiltFromDisjoint (g : PathIntersectionGraph Path Coord Point) (a b : List Path) : Prop :=
  g._pv = (a, b) ∧ g._xs = [] ∧
    g._components = (outsideRecords 0 a.length, outsideRecords 1 b.length)

end PathIntersectionGraph

/-! ## Coordinates (`coord.h`) and the constructor of the graph

`Coord` is `double`.  A finite `double` is kept as an integer mantissa and a
binary exponent, so that the value of a literal is computed exactly.
-/

/-- A finite value of the C++ type `double` (IEEE 754 binary64), the number
`mantissa * 2 ^ exponent`; `using Coord = double;` makes it the coordinate type. -/
structure Double where
  mantissa : Int
  exponent : Int
  deriving DecidableEq, Repr

/-- The rational number a `double` stands for. -/
def Double.toRat (x : Double) : Rat :=
  if 0 ≤ x.exponent then (x.mantissa : Rat) * (2 : Rat) ^ x.exponent.toNat
  else (x.mantissa : Rat) / (2 : Rat) ^ (-x.exponent).toNat

/-- Whether a `double` is a normal binary64 number: a mantissa of exactly 53 bits
and an exponent in the range of the format. -/
def Double.isNormal (x : Double) : Bool :=
  decide (4503599627370496 ≤ x.mantissa.natAbs) &&
    decide (x.mantissa.natAbs < 9007199254740992) &&
    decide (-1074 ≤ x.exponent) && decide (x.exponent ≤ 971)

/-- The integer nearest to `num / den`, ties going to the even one. -/
def roundNearestEven (num den : Nat) : Nat :=
  let q := num / den
  let r := num % den
  if 2 * r < den then q
  else if den < 2 * r then q + 1
  else if q % 2 = 0 then q
  else q + 1

/-- The number of binary digits of `n`, by repeated halving; the first argument
bounds the number of halvings. -/
def bitLength : Nat → Nat → Nat
  | 0, _ => 0
  | fuel + 1, n => if n = 0 then 0 else bitLength fuel (n / 2) + 1

/-- The position of the leading binary digit of `n`, that is `⌊log₂ n⌋` for
`n > 0`. -/
def log2Floor (n : Nat) : Nat := bitLength n n - 1

/-- The quotient `num / den` of two positive integers rounded to 53 bits of
precision, to nearest with ties to even: the rounding a compiler applies to a
decimal literal and the processor to a division.  The exponent is not limited
here; `Double.isNormal` tells whether the result is a normal binary64 number. -/
def Double.roundRatio (num den : Nat) : Double :=
  if num = 0 ∨ den = 0 then { mantissa := 0, exponent := 0 }
  else
    let a : Int := (log2Floor num : Int)
    let b : Int := (log2Floor den : Int)
    let e : Int := if den * 2 ^ a.toNat ≤ num * 2 ^ b.toNat then a - b else a - b - 1
    let s : Int := 52 - e
    let m := roundNearestEven (num * 2 ^ s.toNat) (den * 2 ^ (-s).toNat)
    if m = 9007199254740992 then { mantissa := 4503599627370496, exponent := 1 - s }
    else { mantissa := (m : Int), exponent := -s }

/-- The rational number a decimal floating literal `digits e decExp` denotes. -/
def decimalValue (digits : Nat) (decExp : Int) : Rat :=
  (digits : Rat) * (10 : Rat) ^ decExp.toNat / (10 : Rat) ^ (-decExp).toNat

/-- The `double` a decimal floating literal `digits e decExp` is converted to. -/
def Double.ofDecimal (digits : Nat) (decExp : Int) : Double :=
  Double.roundRatio (digits * 10 ^ decExp.toNat) (10 ^ (-decExp).toNat)

/-- The constant `constexpr Coord EPSILON = 1e-6;` of `coord.h`. -/
def EPSILON : Double := Double.ofDecimal 1 (-6)

/-- The value of the parameter `precision` in the constructor declared as
`PathIntersectionGraph(PathVector const &a, PathVector const &b, Coord precision = EPSILON)`:
the argument of the call, or the default when the call omits it. -/
def PathIntersectionGraph.precisionArgument (precision : Option Double) : Double :=
  precision.getD EPSILON

/-- The constructor of `PathIntersectionGraph`.  The header declares it without a
body; the body is the parameter `body`, run on the two operands and on the
value of `precision`. -/
def PathIntersectionGraph.construct {Path Point : Type}
    (body : List Path → List Path → Double → PathIntersectionGraph Path Double Point)
    (a b : List Path) (precision : Option Double) : PathIntersectionGraph Path Double Point :=
  body a b (PathIntersectionGraph.precisionArgument precision)

/-! ## Construction of the graph

The header declares the constructor and the private steps
`_prepareIntersectionLists`, `_assignEdgeWindingParities`,
`_assignComponentStatusFromDegenerateIntersections`,
`_removeDegenerateIntersections` and `_verify` without bodies.  Their bodies
are modelled from the specification: the graph builder (§4.1), the classifier
(§4.2) and the validator (§4.3).  The geometry is supplied by the external
collaborators of §2 and §6, gathered in `Geometry`.  The step
`_prepareArguments`, also declared, has no counterpart in the specification:
the operands are stored as they are given (§3).
-/

/-- Modelled from the spec: the external collaborators the construction consumes
(§2, §6).  `segmentCount` is the number of segments of a contour; `solve` is the
pairwise intersection solver, given two segments (each by contour and index)
and a tolerance, returning the parameter pairs where they meet; `pointAt` is
parametric evaluation; `edgeSample` picks an interior sample point on the part
of a contour between two positions and `contourSample` one on a whole contour;
`inside` is the winding test of a shape at a point under the even-odd rule;
`coincide` tells whether two solver results are the same point within the
tolerance. -/
structure Geometry (Path Point : Type) where
  segmentCount : Path → Nat
  solve : Path → Nat → Path → Nat → Double → List (Double × Double)
  pointAt : Path → Nat → Double → Point
  edgeSample : Path → PathVectorTime Double → PathVectorTime Double → Point
  contourSample : Path → Point
  inside : List Path → Point → Bool
  coincide : Point → Point → Double → Bool

/-- The comparison `x <= y` of two finite `double` values. -/
def Double.le (x y : Double) : Bool := decide (x.toRat ≤ y.toRat)

/-- Modelled from the spec: one result of the solver placed on both operands: the
position on operand A, the position on operand B and the geometric point
(§4.1). -/
structure Crossing (Point : Type) where
  first : PathVectorTime Double
  second : PathVectorTime Double
  p : Point

namespace PathIntersectionGraph

variable {Path Point : Type}

/-- Modelled from the spec: the solver invoked on every pair of segments, one per
operand (§4.1). -/
def solveAll (geom : Geometry Path Point) (a b : List Path) (precision : Double) :
    List (Crossing Point) :=
  (List.range a.length).flatMap fun i =>
    match a[i]? with
    | none => []
    | some pa =>
      (List.range (geom.segmentCount pa)).flatMap fun sa =>
        (List.range b.length).flatMap fun j =>
          match b[j]? with
          | none => []
          | some pb =>
            (List.range (geom.segmentCount pb)).flatMap fun sb =>
              (geom.solve pa sa pb sb precision).map fun t =>
                { first := { path_index := i, curve_index := sa, t := t.1 }
                  second := { path_index := j, curve_index := sb, t := t.2 }
                  p := geom.pointAt pa sa t.1 }

/-- Modelled from the spec: solver results that coincide within the tolerance are
coalesced into one (§4.1): a result is dropped when an earlier one kept is the
same point. -/
def coalesce (geom : Geometry Path Point) (precision : Double)
    (cs : List (Crossing Point)) : List (Crossing Point) :=
  cs.foldl
    (fun kept c => if kept.any fun k => geom.coincide k.p c.p precision then kept
      else kept ++ [c])
    []

/-- Modelled from the spec: whether a solver result maps to a coherent parameter
position (§4.1): a time within the segment, from 0 to 1. -/
def coherent (pos : PathVectorTime Double) : Bool :=
  Double.le { mantissa := 0, exponent := 0 } pos.t &&
    Double.le pos.t { mantissa := 4503599627370496, exponent := -52 }

/-- Modelled from the spec: the two vertices of the `k`-th crossing, one per
operand, linked as mutual neighbors; an edge not yet classified is `BOTH`, and a
vertex whose position is not coherent is marked defective (§3, §4.1). -/
def vertexPair (k : Nat) (c : Crossing Point) : List (IntersectionVertex Double Point) :=
  [{ pos := c.first, p := c.p, neighbor := 2 * k + 1, next_edge := InOutFlag.BOTH,
     which := 0, defective := !coherent c.first },
   { pos := c.second, p := c.p, neighbor := 2 * k, next_edge := InOutFlag.BOTH,
     which := 1, defective := !coherent c.second }]

/-- Modelled from the spec: contour time order within one contour (§3): by
segment, then by parameter. -/
def timeLE (x y : PathVectorTime Double) : Bool :=
  decide (x.curve_index < y.curve_index) ||
    (x.curve_index == y.curve_index && Double.le x.t y.t)

/-- Modelled from the spec: insertion of vertex `i` into a time-ordered list
(§4.1). -/
def insertByTime (xs : List (IntersectionVertex Double Point)) (i : Nat) :
    List Nat → List Nat
  | [] => [i]
  | j :: rest =>
    match xs[i]?, xs[j]? with
    | some vi, some vj =>
      if timeLE vi.pos vj.pos then i :: j :: rest else j :: insertByTime xs i rest
    | _, _ => j :: insertByTime xs i rest

/-- Modelled from the spec: the time-ordered list of the vertices lying on
contour `pathIndex` of operand `w` (§4.1). -/
def contourList (xs : List (IntersectionVertex Double Point)) (w pathIndex : Nat) : List Nat :=
  ((List.range xs.length).filter fun i =>
      match xs[i]? with
      | some v => v.which == w && v.pos.path_index == pathIndex
      | none => false).foldl
    (fun l i => insertByTime xs i l) []

/-- Modelled from the spec: one contour record per contour of operand `w`, each
begun by the `PathData` constructor and given its list of vertices (§3). -/
def contourRecords (xs : List (IntersectionVertex Double Point)) (w n : Nat) : List PathData :=
  (List.range n).map fun i => { PathData.init (w : Int) i with xlist := contourList xs w i }

/-- Modelled from the spec: `_prepareIntersectionLists(Coord precision)` (declared
only), the graph builder of §4.1: solve every pair of segments, coalesce, create
the vertex pairs and the per-contour lists.  The `bool` returned tells whether
there is any intersection. -/
def _prepareIntersectionLists (geom : Geometry Path Point)
    (g : PathIntersectionGraph Path Double Point) (precision : Double) :
    Bool × PathIntersectionGraph Path Double Point :=
  let cs := coalesce geom precision (solveAll geom g._pv.1 g._pv.2 precision)
  let xs := ((List.range cs.length).zip cs).flatMap fun kc => vertexPair kc.1 kc.2
  (!xs.isEmpty,
    { g with
      _xs := xs
      _components := (contourRecords xs 0 g._pv.1.length, contourRecords xs 1 g._pv.2.length) })

/-- Modelled from the spec: the classification the winding test gives (§4.2). -/
def flagOf (isInside : Bool) : InOutFlag :=
  if isInside then InOutFlag.INSIDE else InOutFlag.OUTSIDE

/-- The index of the opposing operand. -/
def other (w : Nat) : Nat := if w = 0 then 1 else 0

/-- Modelled from the spec: the sample point of the edge that leaves vertex `i`,
between `i` and the next vertex of its contour (§4.2); none for a vertex that is
in no list. -/
def edgeSamplePoint (geom : Geometry Path Point) (g : PathIntersectionGraph Path Double Point)
    (i : Nat) (v : IntersectionVertex Double Point) : Option Point :=
  if (g.xlistOf v).contains i then
    match (g.pv v.which)[v.pos.path_index]?, g._xs[cyclicNext (g.xlistOf v) i]? with
    | some path, some v2 => some (geom.edgeSample path v.pos v2.pos)
    | _, _ => none
  else none

/-- Modelled from the spec: the sample point of a contour of operand `w` with zero
intersections (§4.2); none for a contour that has intersections. -/
def contourSamplePoint (geom : Geometry Path Point)
    (g : PathIntersectionGraph Path Double Point) (w : Nat) (c : PathData) : Option Point :=
  if c.xlist.isEmpty then ((g.pv w)[c.path_index]?).map geom.contourSample else none

/-- Modelled from the spec: `_assignEdgeWindingParities(Coord precision)` (declared
only), the classifier of §4.2: every edge between two consecutive vertices and
every contour with zero intersections gets the answer of the opposing operand's
winding test at its sample point, and every sample point is recorded.  The
spec gives the tolerance no part in this step. -/
def _assignEdgeWindingParities (geom : Geometry Path Point)
    (g : PathIntersectionGraph Path Double Point) (_precision : Double) :
    PathIntersectionGraph Path Double Point :=
  { g with
    _xs := ((List.range g._xs.length).zip g._xs).map fun iv =>
      match edgeSamplePoint geom g iv.1 iv.2 with
      | some s => { iv.2 with next_edge := flagOf (geom.inside (g.pv (other iv.2.which)) s) }
      | none => iv.2
    _components :=
      (g._components.1.map fun c =>
          match contourSamplePoint geom g 0 c with
          | some s => { c with status := flagOf (geom.inside (g.pv 1) s) }
          | none => c,
        g._components.2.map fun c =>
          match contourSamplePoint geom g 1 c with
          | some s => { c with status := flagOf (geom.inside (g.pv 0) s) }
          | none => c)
    _winding_points :=
      g._winding_points ++
        (((List.range g._xs.length).zip g._xs).filterMap fun iv =>
          edgeSamplePoint geom g iv.1 iv.2) ++
        g._components.1.filterMap (contourSamplePoint geom g 0) ++
        g._components.2.filterMap (contourSamplePoint geom g 1) }

/-- Modelled from the spec: whether vertex `i` is a kiss (§4.2): on both operands
the edge arriving at the point and the edge leaving it have the same
classification. -/
def isKiss (g : PathIntersectionGraph Path Double Point) (i : Nat) : Bool :=
  match g._xs[i]? with
  | none => false
  | some v =>
    match g._xs[v.neighbor]? with
    | none => false
    | some n =>
      (g.edgeAhead i v true == v.next_edge) &&
        (g.edgeAhead v.neighbor n true == n.next_edge)

/-- Modelled from the spec: `_assignComponentStatusFromDegenerateIntersections()`
(declared only): a contour that carries a kiss takes its whole-contour status
from the classification around that vertex (§4.2). -/
def _assignComponentStatusFromDegenerateIntersections
    (g : PathIntersectionGraph Path Double Point) : PathIntersectionGraph Path Double Point :=
  let assign := fun (c : PathData) =>
    match c.xlist.find? g.isKiss with
    | none => c
    | some i =>
      match g._xs[i]? with
      | some v => { c with status := v.next_edge }
      | none => c
  { g with _components := (g._components.1.map assign, g._components.2.map assign) }

/-- Modelled from the spec: `_removeDegenerateIntersections()` (declared only):
every kiss is removed from the active crossing set, the per-contour lists
(§4.2). -/
def _removeDegenerateIntersections (g : PathIntersectionGraph Path Double Point) :
    PathIntersectionGraph Path Double Point :=
  let remove := fun (c : PathData) => { c with xlist := c.xlist.filter fun i => !g.isKiss i }
  { g with _components := (g._components.1.map remove, g._components.2.map remove) }

/-- Modelled from the spec: `_verify()` (declared only), the validator of §4.3:
the graph is valid when every remaining vertex is not defective and its edge
classification differs from its neighbor's. -/
def _verify (g : PathIntersectionGraph Path Double Point) :
    PathIntersectionGraph Path Double Point :=
  { g with
    _graph_valid := g.vertexIndices.all fun i =>
      match g._xs[i]? with
      | none => false
      | some v =>
        match g._xs[v.neighbor]? with
        | none => false
        | some n => !v.defective && v.next_edge != n.next_edge }

/-- Modelled from the spec: the body of the constructor (declared only): store the
operands, build the vertices and lists (§4.1), classify edges and whole
contours and strip the kisses (§4.2), validate (§4.3). -/
def constructorBody (geom : Geometry Path Point) (a b : List Path) (precision : Double) :
    PathIntersectionGraph Path Double Point :=
  let g0 : PathIntersectionGraph Path Double Point :=
    { _pv := (a, b), _xs := [], _components := ([], []), _ulist := [],
      _graph_valid := true, _winding_points := [] }
  let g1 := (_prepareIntersectionLists geom g0 precision).2
  let g2 := _assignEdgeWindingParities geom g1 precision
  let g3 := _removeDegenerateIntersections (_assignComponentStatusFromDegenerateIntersections g2)
  _verify g3

end PathIntersectionGraph

/-! ## A concrete geometry -/

/-- A curve collaborator over contours named by strings. -/
def exampleCurves : Curves String Double :=
  { portion := fun path _ _ => path
    reversed := fun path => path
    closed := fun pieces => String.join pieces }

/-- A geometry over contours named by strings, each of four segments.  Contour
`"A1"` crosses contour `"B2"` once (segment 1 against segment 0, at the middle of
both) and contour `"A2"` lies inside `"B2"`; nothing else meets or contains
anything.  A sample point is named after its contour. -/
def exampleGeometry : Geometry String String :=
  { segmentCount := fun _ => 4
    solve := fun pa sa pb sb _ =>
      if pa == "A1" && pb == "B2" && sa == 1 && sb == 0 then
        [({ mantissa := 4503599627370496, exponent := -53 },
          { mantissa := 4503599627370496, exponent := -53 })]
      else []
    pointAt := fun path _ _ => path
    edgeSample := fun path _ _ => path
    contourSample := fun path => path
    inside := fun shape point => point == "A2" && shape.contains "B2"
    coincide := fun p q _ => p == q }

/-! ## A concrete graph: two overlapping squares

The scenario of §8: operand A is the unit square and operand B the same square
shifted by (0.5, 0.5), both walked counter-clockwise from their lower left
corner.  They cross at P = (1, 0.5), on segment 1 of A and segment 0 of B, and at
Q = (0.5, 1), on segment 2 of A and segment 3 of B.  On A the edge from P to Q
is inside B and the edge from Q round to P is outside; on B the edge from P
round to Q is outside A and the edge from Q to P is inside.
-/

/-- Symbolic curves: a contour is `[[name]]`, a portion is the single piece
`[name, segment of its first end, segment of its second end]`, reversing puts
a `9` in front of each piece, and a closed contour is the list of its pieces. -/
def squaresCurves : Curves (List (List Nat)) Nat :=
  { portion := fun path x y => [path.flatten ++ [x.curve_index, y.curve_index]]
    reversed := fun path => path.map fun piece => 9 :: piece
    closed := fun pieces => pieces.flatten }

/-- The classified graph of the two squares: vertices 0 and 1 are P and Q on A,
vertices 2 and 3 are P and Q on B; points are numbered 0 (P) and 1 (Q). -/
def squaresGraph : PathIntersectionGraph (List (List Nat)) Nat Nat :=
  { _pv := ([[[0]]], [[[1]]])
    _xs :=
      [{ pos := { path_index := 0, curve_index := 1, t := 5 }, p := 0, neighbor := 2,
         next_edge := InOutFlag.INSIDE, which := 0, defective := false },
       { pos := { path_index := 0, curve_index := 2, t := 5 }, p := 1, neighbor := 3,
         next_edge := InOutFlag.OUTSIDE, which := 0, defective := false },
       { pos := { path_index := 0, curve_index := 0, t := 5 }, p := 0, neighbor := 0,
         next_edge := InOutFlag.OUTSIDE, which := 1, defective := false },
       { pos := { path_index := 0, curve_index := 3, t := 5 }, p := 1, neighbor := 1,
         next_edge := InOutFlag.INSIDE, which := 1, defective := false }]
    _components :=
      ([{ xlist := [0, 1], path_index := 0, which := 0, status := InOutFlag.BOTH }],
        [{ xlist := [2, 3], path_index := 0, which := 1, status := InOutFlag.BOTH }])
    _ulist := []
    _graph_valid := true
    _winding_points := [] }

/-! ## Machine integer lemmas -/

theorem toInt_of_lt (u : Nat) (h : u < 2147483648) : toInt u = (u : Int) := by
  unfold toInt wrapInt; omega

theorem unsignedSub_of_le (a b : Nat) (ha : a < 4294967296) (hb : b ≤ a) :
    unsignedSub a b = a - b := by
  unfold unsignedSub; omega

/-- Pascal's absorption identity over the integers, scaled by `m`; it also holds
when `k > n`, both sides being zero. -/
theorem choose_mul_sub (n k : Nat) (m : Int) :
    m * (n.choose k : Int) * ((n : Int) - (k : Int))
      = m * (n.choose (k + 1) : Int) * ((k : Int) + 1) := by
  rcases Nat.lt_or_ge n k with h | h
  · rw [Nat.choose_eq_zero_of_lt h, Nat.choose_eq_zero_of_lt (Nat.lt_succ_of_lt h)]
    simp
  · have key := Nat.choose_succ_right_eq n k
    have key2 : ((n.choose (k + 1) : Int)) * ((k : Int) + 1)
        = (n.choose k : Int) * ((n : Int) - (k : Int)) := by
      have := congrArg (fun x : Nat => (x : Int)) key
      simp only [Nat.cast_mul, Nat.cast_add, Nat.cast_one, Nat.cast_sub h] at this
      exact this
    rw [mul_assoc, mul_assoc, key2]

/-- The step of `binomial_increment_k` on a multiple of `C(n, k)`, for `int`
arguments `n, k ≥ 0`. -/
theorem binomial_increment_k_eq (n k : Nat) (m : Int)
    (hn : n < 2147483648) (hk : k < 2147483648) :
    binomial_increment_k (m * (n.choose k : Int)) n k
      = some (m * (n.choose (k + 1) : Int)) := by
  have hsub : intSub (n : Int) (k : Int) = (n : Int) - (k : Int) := by
    unfold intSub wrapInt; omega
  unfold binomial_increment_k divExact
  rw [hsub, choose_mul_sub]
  rcases Nat.lt_or_ge (k + 1) 2147483648 with h | h
  · have hadd : intAdd (k : Int) 1 = (k : Int) + 1 := by
      unfold intAdd wrapInt; omega
    have hne : (k : Int) + 1 ≠ 0 := by omega
    rw [hadd, if_neg hne, Int.mul_tdiv_cancel _ hne]
  · have hk' : k = 2147483647 := by omega
    have hadd : intAdd (k : Int) 1 = -2147483648 := by
      unfold intAdd wrapInt; omega
    have hz : n.choose (k + 1) = 0 := Nat.choose_eq_zero_of_lt (by omega)
    rw [hadd, hz]
    simp

/-- Loop invariant of `choose`: entering iteration `i` with `b = C(n, i)` and
`r = max - i` iterations left, the loop ends with `C(n, max)`. -/
theorem chooseLoop_eq (n max : Nat) (hn : n < 2147483648) (hmax : max ≤ n) :
    ∀ (r i : Nat), i + r = max →
      chooseLoop (n : Int) (max : Int) r (i : Int) (n.choose i : Int)
        = some (n.choose max : Int) := by
  intro r
  induction r with
  | zero =>
    intro i hi
    have : i = max := by omega
    subst this
    rfl
  | succ r ih =>
    intro i hi
    have hlt : (i : Int) < (max : Int) := by omega
    have hstep := binomial_increment_k_eq n i 1 hn (by omega)
    simp only [one_mul] at hstep
    have hadd : intAdd (i : Int) 1 = ((i + 1 : Nat) : Int) := by
      unfold intAdd wrapInt; omega
    rw [chooseLoop, if_pos hlt, hstep, Option.some_bind, hadd]
    exact ih (i + 1) (by omega)

/-- On arguments below `2^31` the exact `choose` returns the binomial
coefficient. -/
theorem choose_eq_of_lt (n k : Nat) (hn : n < 2147483648) :
    choose n k = some (n.choose k : Int) := by
  unfold choose
  by_cases h : k > n
  · rw [if_pos h, Nat.choose_eq_zero_of_lt h]
    rfl
  · rw [if_neg h]
    have hle : k ≤ n := Nat.le_of_not_gt h
    have hsub := unsignedSub_of_le n k (by omega) hle
    have hmin : min k (n - k) < 2147483648 := by omega
    have hmle : min k (n - k) ≤ n := by omega
    simp only [hsub, toInt_of_lt _ hmin, toInt_of_lt _ hn, Int.toNat_ofNat]
    have := chooseLoop_eq n (min k (n - k)) hn hmle (min k (n - k)) 0 (by omega)
    simp only [Nat.choose_zero_right, Nat.cast_one, Nat.cast_zero] at this
    rw [this]
    congr 2
    rcases Nat.le_total k (n - k) with h1 | h1
    · rw [Nat.min_eq_left h1]
    · rw [Nat.min_eq_right h1, Nat.choose_symm hle]

/-- For every `unsigned` argument `n`, `choose<T>(n, k)` is `0` when `k > n`. -/
theorem choose_of_gt (n k : Nat) (h : k > n) : choose n k = some 0 := by
  unfold choose
  rw [if_pos h]

/-- For every `unsigned` argument `n`, `choose<T>(n, 0)` is `1`. -/
theorem choose_zero_right (n : Nat) : choose n 0 = some 1 := by
  unfold choose
  rw [if_neg (Nat.not_lt_zero n)]
  have : toInt (min 0 (unsignedSub n 0)) = 0 := by
    rw [Nat.zero_min]; rfl
  simp only [this]
  rfl

/-- For every `unsigned` argument `n`, `choose<T>(n, n)` is `1`. -/
theorem choose_self (n : Nat) (hn : n < 4294967296) : choose n n = some 1 := by
  unfold choose
  rw [if_neg (Nat.lt_irrefl n)]
  have : toInt (min n (unsignedSub n n)) = 0 := by
    rw [unsignedSub_of_le n n hn (Nat.le_refl n), Nat.sub_self, Nat.min_zero]; rfl
  simp only [this]
  rfl

/-- The step of `binomial_increment_k` over a 32-bit unsigned value type is
right as long as the product `C(n, i) * (n - i)` fits in 32 bits. -/
theorem binomial_increment_k_u32_eq (n i : Nat) (hn : n < 4294967296) (hi : 2 * i < n)
    (hfit : n.choose i * (n - i) < 4294967296) :
    binomial_increment_k_u32 (n.choose i) (toInt n) (i : Int) = some (n.choose (i + 1)) := by
  have hsub : toUnsigned (intSub (toInt n) (i : Int)) = n - i := by
    unfold toUnsigned intSub toInt wrapInt; omega
  have hadd : toUnsigned (intAdd (i : Int) 1) = i + 1 := by
    unfold toUnsigned intAdd wrapInt; omega
  unfold binomial_increment_k_u32 divU32
  rw [hsub, hadd, if_neg (Nat.succ_ne_zero i), Nat.mod_eq_of_lt hfit,
    ← Nat.choose_succ_right_eq, Nat.mul_div_cancel _ (Nat.succ_pos i)]

/-- Loop invariant of `choose` over a 32-bit unsigned value type. -/
theorem chooseLoop_u32_eq (n max : Nat) (hn : n < 4294967296) (hmax : 2 * max ≤ n)
    (hfit : ∀ j, j < max → n.choose j * (n - j) < 4294967296) :
    ∀ (r i : Nat), i + r = max →
      chooseLoop_u32 (toInt n) (max : Int) r (i : Int) (n.choose i) = some (n.choose max) := by
  intro r
  induction r with
  | zero =>
    intro i hi
    have : i = max := by omega
    subst this
    rfl
  | succ r ih =>
    intro i hi
    have hlt : (i : Int) < (max : Int) := by omega
    have hstep := binomial_increment_k_u32_eq n i hn (by omega) (hfit i (by omega))
    have hadd : intAdd (i : Int) 1 = ((i + 1 : Nat) : Int) := by
      unfold intAdd wrapInt; omega
    rw [chooseLoop_u32, if_pos hlt, hstep, Option.some_bind, hadd]
    exact ih (i + 1) (by omega)

theorem pascalRow_succ (n j : Nat) :
    pascalRow n (j + 1) = pascalRow n j ++ [(n.choose j : Int)] := by
  simp [pascalRow, List.range_succ]

theorem tdiv_two_natCast (n : Nat) : ((n : Int)).tdiv 2 = ((n / 2 : Nat) : Int) := by
  rw [Int.tdiv_eq_ediv (Int.ofNat_nonneg n) (by decide)]
  rfl

/-- Loop invariant of the `BinomialCoefficient` constructor: entering iteration
`i` with `b = C(n, i)` and the coefficients `C(n, 0), …, C(n, i)` stored, the loop
ends with `C(n, 0), …, C(n, n / 2)` stored. -/
theorem BinomialCoefficient.fill_eq (n : Nat) (hn : n < 2147483648) :
    ∀ (r i : Nat), i + r = n / 2 →
      BinomialCoefficient.fill (n : Int) r (i : Int) (n.choose i : Int) (pascalRow n (i + 1))
        = some (pascalRow n (n / 2 + 1)) := by
  intro r
  induction r with
  | zero =>
    intro i hi
    have : i = n / 2 := by omega
    subst this
    rfl
  | succ r ih =>
    intro i hi
    have hlt : (i : Int) < ((n : Int)).tdiv 2 := by
      rw [tdiv_two_natCast]; omega
    have hstep := binomial_increment_k_eq n i 1 hn (by omega)
    simp only [one_mul] at hstep
    have hadd : intAdd (i : Int) 1 = ((i + 1 : Nat) : Int) := by
      unfold intAdd wrapInt; omega
    rw [BinomialCoefficient.fill, if_pos hlt, hstep, Option.some_bind, hadd,
      ← pascalRow_succ]
    exact ih (i + 1) (by omega)

/-- For an argument below `2^31` the constructor succeeds and stores the first
half of row `n`. -/
theorem BinomialCoefficient.construct_eq (n : Nat) (hn : n < 2147483648) :
    BinomialCoefficient.construct n
      = some { n := (n : Int), coefficients := pascalRow n (n / 2 + 1) } := by
  have hres : ¬ intAdd ((n / 2 : Nat) : Int) 1 < 0 := by
    unfold intAdd wrapInt; omega
  have hfill := BinomialCoefficient.fill_eq n hn (n / 2) 0 (by omega)
  simp only [Nat.choose_zero_right, Nat.cast_one, Nat.cast_zero] at hfill
  have hp : pascalRow n (0 + 1) = [1] := by
    simp [pascalRow, List.range_succ]
  rw [hp] at hfill
  unfold BinomialCoefficient.construct
  simp only [toInt_of_lt n hn, tdiv_two_natCast, if_neg hres, Int.toNat_ofNat, hfill,
    Option.map_some']

/-- For an argument `n` below `2^31` and `k ≤ n`, `BinomialCoefficient(n)[k]` is
`C(n, k)`. -/
theorem BinomialCoefficient.get_eq_of_lt (n k : Nat) (hn : n < 2147483648) (hk : k ≤ n) :
    (BinomialCoefficient.construct n).bind (fun c => c.get k) = some (n.choose k : Int) := by
  rw [BinomialCoefficient.construct_eq n hn, Option.some_bind]
  have hu : toUnsigned (n : Int) = n := by unfold toUnsigned; omega
  have hsub := unsignedSub_of_le n k (by omega) hk
  have hidx : min k (n - k) < n / 2 + 1 := by omega
  simp only [BinomialCoefficient.get, hu, hsub, pascalRow, List.getElem?_map,
    List.getElem?_range hidx, Option.map_some']
  congr 2
  rcases Nat.le_total k (n - k) with h1 | h1
  · rw [Nat.min_eq_left h1]
  · rw [Nat.min_eq_right h1, Nat.choose_symm hk]

/-! ## Claims about `choose.h` -/

/-- C1: over the exact integers `choose<T>(2147483648, 1)` returns `-2147483648`,
whereas the binomial coefficient `C(2147483648, 1)` is `2147483648`: the
`unsigned` argument `n` has become a negative `int` inside
`binomial_increment_k`. -/
theorem choose_exact_at_two_pow_31 :
    choose 2147483648 1 = some (-2147483648) ∧ Nat.choose 2147483648 1 = 2147483648 := by
  refine ⟨by decide, ?_⟩
  rw [Nat.choose_one_right]

/-- C3 (as stated, refuted): `C(65537, 2) = 2147516416` is below `2^32`, yet
`choose<T>(65537, 2)` over a 32-bit unsigned type returns `32768`, because the
intermediate product `65537 * 65536` does not fit in 32 bits. -/
theorem choose_u32_intermediate_overflow :
    Nat.choose 65537 2 < 4294967296 ∧ choose_u32 65537 2 = some 32768 ∧
      choose_u32 65537 2 ≠ some (Nat.choose 65537 2) := by
  have hc : Nat.choose 65537 2 = 2147516416 := by
    rw [Nat.choose_two_right]
  have hv : choose_u32 65537 2 = some 32768 := by decide
  refine ⟨by rw [hc]; decide, hv, ?_⟩
  rw [hc, hv]
  decide

/-- C3 (amended): over a 32-bit unsigned value type, for all `unsigned` arguments
`n` and `k` such that every intermediate product `C(n, i) * (n - i)` with
`i < min(k, n - k)` is below `2^32`, `choose<T>(n, k)` returns `C(n, k)`. -/
theorem choose_u32_eq (n k : Nat) (hn : n < 4294967296)
    (hfit : ∀ i, i < min k (n - k) → n.choose i * (n - i) < 4294967296) :
    choose_u32 n k = some (n.choose k) := by
  unfold choose_u32
  by_cases h : k > n
  · rw [if_pos h, Nat.choose_eq_zero_of_lt h]
  · rw [if_neg h]
    have hle : k ≤ n := Nat.le_of_not_gt h
    have hsub := unsignedSub_of_le n k hn hle
    have hmin : min k (n - k) < 2147483648 := by omega
    simp only [hsub, toInt_of_lt _ hmin, Int.toNat_ofNat]
    have := chooseLoop_u32_eq n (min k (n - k)) hn (by omega) hfit (min k (n - k)) 0 (by omega)
    simp only [Nat.choose_zero_right, Nat.cast_zero] at this
    rw [this]
    congr 1
    rcases Nat.le_total k (n - k) with h1 | h1
    · rw [Nat.min_eq_left h1]
    · rw [Nat.min_eq_right h1, Nat.choose_symm hle]

/-- Witness for C3 (amended): `choose<T>(10, 3)` over a 32-bit unsigned type. -/
theorem choose_u32_eq_witness : choose_u32 10 3 = some (Nat.choose 10 3) :=
  choose_u32_eq 10 3 (by decide) (by decide)

/-- C6: for `int` arguments `n ≥ 0` and `k ≥ 0` and every integer `m`,
`binomial_increment_k` turns `b = m * C(n, k)` into `m * C(n, k + 1)`, and the
divisor divides the product exactly. -/
theorem binomial_increment_k_spec (n k : Nat) (m : Int)
    (hn : n < 2147483648) (hk : k < 2147483648) :
    binomial_increment_k (m * (n.choose k : Int)) n k = some (m * (n.choose (k + 1) : Int)) ∧
      intAdd (k : Int) 1 ∣ m * (n.choose k : Int) * intSub (n : Int) (k : Int) := by
  refine ⟨binomial_increment_k_eq n k m hn hk, ?_⟩
  have hsub : intSub (n : Int) (k : Int) = (n : Int) - (k : Int) := by
    unfold intSub wrapInt; omega
  rw [hsub, choose_mul_sub]
  rcases Nat.lt_or_ge (k + 1) 2147483648 with h | h
  · have hadd : intAdd (k : Int) 1 = (k : Int) + 1 := by
      unfold intAdd wrapInt; omega
    rw [hadd]
    exact Dvd.intro_left _ rfl
  · have hz : n.choose (k + 1) = 0 := Nat.choose_eq_zero_of_lt (by omega)
    rw [hz]
    simp

/-- Witness for C6: `3 * C(5, 2) = 30` becomes `3 * C(5, 3) = 30`. -/
theorem binomial_increment_k_spec_witness :
    binomial_increment_k (3 * (Nat.choose 5 2 : Int)) (5 : Nat) (2 : Nat)
        = some (3 * (Nat.choose 5 (2 + 1) : Int)) ∧
      intAdd ((2 : Nat) : Int) 1 ∣ 3 * (Nat.choose 5 2 : Int) * intSub ((5 : Nat) : Int) ((2 : Nat) : Int) :=
  binomial_increment_k_spec 5 2 3 (by decide) (by decide)

/-- C7 (as stated, refuted): at the `int` arguments `n = 2147483647`, `k = 1` and
`m = 1` the sum `n + 1` leaves the range of `int`, and `binomial_increment_n`
does not turn `C(n, 1)` into `C(n + 1, 1)`. -/
theorem binomial_increment_n_at_int_max :
    binomial_increment_n (1 * (Nat.choose 2147483647 1 : Int)) (2147483647 : Nat) (1 : Nat)
      ≠ some (1 * (Nat.choose (2147483647 + 1) 1 : Int)) := by
  rw [Nat.choose_one_right, Nat.choose_one_right]
  decide

/-- C7 (amended): for `int` arguments with `0 ≤ k ≤ n` and `n + 1` representable
(`n < 2147483647`), and every integer `m`, `binomial_increment_n` turns
`b = m * C(n, k)` into `m * C(n + 1, k)`. -/
theorem binomial_increment_n_spec (n k : Nat) (m : Int)
    (hkn : k ≤ n) (hn : n < 2147483647) :
    binomial_increment_n (m * (n.choose k : Int)) n k
      = some (m * ((n + 1).choose k : Int)) := by
  have hadd : intAdd (n : Int) 1 = (n : Int) + 1 := by
    unfold intAdd wrapInt; omega
  have hsub : intSub ((n : Int) + 1) (k : Int) = (n : Int) + 1 - (k : Int) := by
    unfold intSub wrapInt; omega
  have hne : (n : Int) + 1 - (k : Int) ≠ 0 := by omega
  have key : (n.choose k : Int) * ((n : Int) + 1)
      = ((n + 1).choose k : Int) * ((n : Int) + 1 - (k : Int)) := by
    have := congrArg (fun x : Nat => (x : Int)) (Nat.choose_mul_succ_eq n k)
    simp only [Nat.cast_mul, Nat.cast_add, Nat.cast_one,
      Nat.cast_sub (Nat.le_succ_of_le hkn)] at this
    exact this
  unfold binomial_increment_n divExact
  rw [hadd, hsub, if_neg hne, mul_assoc, key, ← mul_assoc, Int.mul_tdiv_cancel _ hne]

/-- Witness for C7 (amended): `2 * C(4, 2) = 12` becomes `2 * C(5, 2) = 20`. -/
theorem binomial_increment_n_spec_witness :
    binomial_increment_n (2 * (Nat.choose 4 2 : Int)) (4 : Nat) (2 : Nat)
      = some (2 * (Nat.choose (4 + 1) 2 : Int)) :=
  binomial_increment_n_spec 4 2 2 (by decide) (by decide)

/-- C8: for `int` arguments with `1 ≤ k ≤ n` and every integer `m`,
`binomial_decrement_k` turns `b = m * C(n, k)` into `m * C(n, k - 1)`. -/
theorem binomial_decrement_k_spec (n k : Nat) (m : Int)
    (hk : 1 ≤ k) (hkn : k ≤ n) (hn : n < 2147483648) :
    binomial_decrement_k (m * (n.choose k : Int)) n k
      = some (m * (n.choose (k - 1) : Int)) := by
  obtain ⟨j, rfl⟩ : ∃ j, k = j + 1 := ⟨k - 1, by omega⟩
  have hdiv : intSub (intAdd (n : Int) 1) ((j + 1 : Nat) : Int) = (n : Int) - (j : Int) := by
    unfold intSub intAdd wrapInt; omega
  have hne : (n : Int) - (j : Int) ≠ 0 := by omega
  have hcast : ((j + 1 : Nat) : Int) = (j : Int) + 1 := by push_cast; rfl
  unfold binomial_decrement_k divExact
  rw [hdiv, if_neg hne, Nat.add_sub_cancel, hcast, ← choose_mul_sub,
    Int.mul_tdiv_cancel _ hne]

/-- Witness for C8: `3 * C(5, 2) = 30` becomes `3 * C(5, 1) = 15`. -/
theorem binomial_decrement_k_spec_witness :
    binomial_decrement_k (3 * (Nat.choose 5 2 : Int)) (5 : Nat) (2 : Nat)
      = some (3 * (Nat.choose 5 (2 - 1) : Int)) :=
  binomial_decrement_k_spec 5 2 3 (by decide) (by decide) (by decide)

/-- C2: for the constructor argument `2147483648` the `int` member `n` is
negative and `reserve(n / 2 + 1)` fails, so no row is built; for the argument
`4294967295` the member is `-1`, only `C(n, 0)` is stored, and the index `1` is
past the end, whereas `C(4294967295, 1) = 4294967295`. -/
theorem BinomialCoefficient_at_large_n :
    BinomialCoefficient.construct 2147483648 = none ∧
      BinomialCoefficient.construct 4294967295 = some { n := -1, coefficients := [1] } ∧
      (BinomialCoefficient.construct 4294967295).bind (fun c => c.get 1) = none ∧
      Nat.choose 4294967295 1 = 4294967295 := by
  refine ⟨by decide, by decide, by decide, ?_⟩
  rw [Nat.choose_one_right]

/-! ## Lemmas about the path intersection graph -/

namespace PathIntersectionGraph

variable {Path Coord Point : Type}

theorem filterMap_getElem?_range (l : List Path) :
    (List.range l.length).filterMap (fun i => l[i]?) = l := by
  induction l with
  | nil => rfl
  | cons x xs ih =>
    rw [List.length_cons, List.range_succ_eq_map, List.filterMap_cons]
    simp only [List.getElem?_cons_zero, List.filterMap_map]
    have hf : ((fun i => (x :: xs)[i]?) ∘ Nat.succ) = fun i => xs[i]? := by
      funext i
      simp
    rw [hf, ih]

/-- Whole contours all recorded outside the other operand are all appended when
the operator asks for the outside, and none when it asks for the inside. -/
theorem handleNonintersecting_outside (g : PathIntersectionGraph Path Coord Point)
    (result : List Path) (which : Nat) (w : Int)
    (hc : g.components which = outsideRecords w (g.pv which).length) (inside : Bool) :
    g._handleNonintersectingPaths result which inside
      = if inside then result else result ++ g.pv which := by
  unfold _handleNonintersectingPaths
  rw [hc, outsideRecords, List.filterMap_map]
  cases inside with
  | true =>
    simp [PathData.init, statusSatisfies, Function.comp_def]
  | false =>
    have : (fun c : PathData => if c.xlist.isEmpty && statusSatisfies c.status false
          then (g.pv which)[c.path_index]? else none) ∘
        (fun i => { PathData.init w i with status := InOutFlag.OUTSIDE })
        = fun i => (g.pv which)[i]? := by
      funext i
      simp [PathData.init, statusSatisfies]
    rw [this, filterMap_getElem?_range]
    simp

theorem flatMap_xlist_outsideRecords (w : Int) (n : Nat) :
    (outsideRecords w n).flatMap PathData.xlist = [] := by
  simp [outsideRecords, PathData.init, List.flatMap]

/-- The tracer on a graph without vertices emits nothing and leaves an empty
list of unprocessed vertices. -/
theorem getResult_of_disjoint (curves : Curves Path Coord)
    (g : PathIntersectionGraph Path Coord Point) (a b : List Path)
    (h : BuiltFromDisjoint g a b) (enter_a enter_b : Bool) :
    g._getResult curves enter_a enter_b = ([], { g with _ulist := [] }) := by
  obtain ⟨_, _, hc⟩ := h
  have hv : g.vertexIndices = [] := by
    unfold vertexIndices
    rw [hc, List.flatMap_append, flatMap_xlist_outsideRecords, flatMap_xlist_outsideRecords]
    rfl
  unfold _getResult
  rw [hv]
  rfl

/-- A walk reads the pool, the contour records and the operands only: the stored
list of unprocessed vertices has no influence on it. -/
theorem traceCycle_ulist (curves : Curves Path Coord)
    (g : PathIntersectionGraph Path Coord Point) (u0 : List Nat)
    (enter_a enter_b : Bool) (start : Nat) :
    ∀ (fuel cur : Nat) (reverse : Bool) (u : List Nat) (acc : List Path),
      traceCycle curves { g with _ulist := u0 } enter_a enter_b start fuel cur reverse u acc
        = traceCycle curves g enter_a enter_b start fuel cur reverse u acc := by
  intro fuel
  induction fuel with
  | zero => intro cur reverse u acc; rfl
  | succ f ih =>
    intro cur reverse u acc
    simp only [traceCycle, ih]
    rfl

theorem traceAll_ulist (curves : Curves Path Coord)
    (g : PathIntersectionGraph Path Coord Point) (u0 : List Nat) (enter_a enter_b : Bool) :
    ∀ (fuel : Nat) (u : List Nat) (result : List Path),
      traceAll curves { g with _ulist := u0 } enter_a enter_b fuel u result
        = traceAll curves g enter_a enter_b fuel u result := by
  intro fuel
  induction fuel with
  | zero => intro u result; rfl
  | succ f ih =>
    intro u result
    cases u with
    | nil => rfl
    | cons start rest =>
      simp only [traceAll, ih, traceCycle_ulist]

/-- The tracer returns the same contours whatever `_ulist` held before. -/
theorem getResult_ulist (curves : Curves Path Coord)
    (g : PathIntersectionGraph Path Coord Point) (u0 : List Nat) (enter_a enter_b : Bool) :
    (_getResult curves { g with _ulist := u0 } enter_a enter_b).1
      = (_getResult curves g enter_a enter_b).1 := by
  simp only [_getResult]
  exact congrArg Prod.fst (traceAll_ulist curves g u0 enter_a enter_b _ _ _)

theorem length_filterMap_point (xs : List (IntersectionVertex Coord Point)) (l : List Nat) :
    (l.filterMap fun i =>
        match xs[i]? with
        | some v => if v.defective == false then some v.p else none
        | none => none).length
      = (l.filter fun i =>
          match xs[i]? with
          | some v => v.defective == false
          | none => false).length := by
  induction l with
  | nil => rfl
  | cons i l ih =>
    rw [List.filterMap_cons, List.filter_cons]
    cases hx : xs[i]? with
    | none => simpa using ih
    | some v =>
      cases hd : v.defective <;> simpa [hd] using ih

end PathIntersectionGraph

/-! ## Claims about the path intersection graph -/

/-- The queries on a graph without vertices whose contour records are all
`OUTSIDE`. -/
theorem results_of_builtFromDisjoint {Path Coord Point : Type} (curves : Curves Path Coord)
    (g : PathIntersectionGraph Path Coord Point) (a b : List Path)
    (h : PathIntersectionGraph.BuiltFromDisjoint g a b) :
    g.size.1 = 0 ∧ (g.getUnion curves).1 = a ++ b ∧ (g.getIntersection curves).1 = [] ∧
      (g.getAminusB curves).1 = a ∧ (g.getBminusA curves).1 = b ∧
      (g.getXOR curves).1 = a ++ b := by
  have hr := fun ea eb => PathIntersectionGraph.getResult_of_disjoint curves g a b h ea eb
  obtain ⟨hpv, hxs, hc⟩ := h
  have hpa : ∀ u, PathIntersectionGraph.pv { g with _ulist := u } 0 = a := by
    intro u; simp [PathIntersectionGraph.pv, hpv]
  have hpb : ∀ u, PathIntersectionGraph.pv { g with _ulist := u } 1 = b := by
    intro u; simp [PathIntersectionGraph.pv, hpv]
  have hca : ∀ u, PathIntersectionGraph.components { g with _ulist := u } 0
      = PathIntersectionGraph.outsideRecords 0
          (PathIntersectionGraph.pv { g with _ulist := u } 0).length := by
    intro u; rw [hpa]; simp [PathIntersectionGraph.components, hc]
  have hcb : ∀ u, PathIntersectionGraph.components { g with _ulist := u } 1
      = PathIntersectionGraph.outsideRecords 1
          (PathIntersectionGraph.pv { g with _ulist := u } 1).length := by
    intro u; rw [hpb]; simp [PathIntersectionGraph.components, hc]
  have hA : (g.getAminusB curves) = (a, { g with _ulist := [] }) := by
    simp only [PathIntersectionGraph.getAminusB, hr,
      PathIntersectionGraph.handleNonintersecting_outside _ _ 0 0 (hca []),
      PathIntersectionGraph.handleNonintersecting_outside _ _ 1 1 (hcb []), hpa]
    simp
  have hB : ∀ u, (PathIntersectionGraph.getBminusA curves { g with _ulist := u }).1 = b := by
    intro u
    have hr2 := PathIntersectionGraph.getResult_of_disjoint curves { g with _ulist := u } a b
      ⟨hpv, hxs, hc⟩ true false
    simp only [PathIntersectionGraph.getBminusA, hr2,
      PathIntersectionGraph.handleNonintersecting_outside _ _ 0 0 (hca []),
      PathIntersectionGraph.handleNonintersecting_outside _ _ 1 1 (hcb []), hpb]
    simp
  refine ⟨?_, ?_, ?_, ?_, ?_, ?_⟩
  · simp [PathIntersectionGraph.size, hc, PathIntersectionGraph.outsideRecords,
      PathData.init, Function.comp_def]
  · simp only [PathIntersectionGraph.getUnion, hr,
      PathIntersectionGraph.handleNonintersecting_outside _ _ 0 0 (hca []),
      PathIntersectionGraph.handleNonintersecting_outside _ _ 1 1 (hcb []), hpa, hpb]
    simp
  · simp only [PathIntersectionGraph.getIntersection, hr,
      PathIntersectionGraph.handleNonintersecting_outside _ _ 0 0 (hca []),
      PathIntersectionGraph.handleNonintersecting_outside _ _ 1 1 (hcb [])]
    simp
  · rw [hA]
  · exact hB g._ulist
  · simp only [PathIntersectionGraph.getXOR, hA, hB]

namespace PathIntersectionGraph

variable {Path Point : Type}

/-- The solver finding nothing on any pair of segments, the builder has no
crossing to place. -/
theorem solveAll_eq_nil (geom : Geometry Path Point) (a b : List Path) (precision : Double)
    (hsolve : ∀ pa ∈ a, ∀ pb ∈ b, ∀ sa sb, sa < geom.segmentCount pa →
      sb < geom.segmentCount pb → geom.solve pa sa pb sb precision = []) :
    solveAll geom a b precision = [] := by
  unfold solveAll
  rw [List.flatMap_eq_nil_iff]
  intro i _
  split
  · rfl
  · next pa hpa =>
    rw [List.flatMap_eq_nil_iff]
    intro sa hsa
    rw [List.flatMap_eq_nil_iff]
    intro j _
    split
    · rfl
    · next pb hpb =>
      rw [List.flatMap_eq_nil_iff]
      intro sb hsb
      rw [hsolve pa (List.getElem?_mem hpa) pb (List.getElem?_mem hpb) sa sb
        (List.mem_range.1 hsa) (List.mem_range.1 hsb)]
      rfl

/-- The records of an operand none of whose contours carries a vertex, after the
classifier has placed every contour outside the other operand. -/
theorem classify_contourRecords_nil (geom : Geometry Path Point)
    (g : PathIntersectionGraph Path Double Point) (w : Nat) (l shape : List Path)
    (hpv : g.pv w = l) (hout : ∀ pa ∈ l, geom.inside shape (geom.contourSample pa) = false) :
    (contourRecords ([] : List (IntersectionVertex Double Point)) w l.length).map
        (fun c =>
          match contourSamplePoint geom g w c with
          | some s => { c with status := flagOf (geom.inside shape s) }
          | none => c)
      = outsideRecords (w : Int) l.length := by
  unfold contourRecords outsideRecords
  rw [List.map_map]
  apply List.map_congr_left
  intro i hi
  have hlt : i < l.length := List.mem_range.1 hi
  have hget : l[i]? = some l[i] := List.getElem?_eq_getElem hlt
  have hmem : l[i] ∈ l := List.getElem_mem hlt
  simp [contourSamplePoint, contourList, PathData.init, hpv, hget, hout _ hmem, flagOf]

/-- The degenerate-intersection steps leave a record without vertices as it is. -/
theorem map_outsideRecords_id (f : PathData → PathData)
    (hf : ∀ c : PathData, c.xlist = [] → f c = c) (w : Int) (n : Nat) :
    (outsideRecords w n).map f = outsideRecords w n := by
  unfold outsideRecords
  rw [List.map_map]
  apply List.map_congr_left
  intro i _
  exact hf _ rfl

/-- The step `_assignComponentStatusFromDegenerateIntersections` changes only
the contour records, and leaves records without vertices as they are. -/
theorem assignComponentStatus_outside (g : PathIntersectionGraph Path Double Point)
    (w1 w2 : Int) (n1 n2 : Nat)
    (hc : g._components = (outsideRecords w1 n1, outsideRecords w2 n2)) :
    _assignComponentStatusFromDegenerateIntersections g = g := by
  have hf : ∀ c : PathData, c.xlist = [] →
      (match c.xlist.find? g.isKiss with
        | none => c
        | some i =>
          match g._xs[i]? with
          | some v => { c with status := v.next_edge }
          | none => c) = c := by
    intro c h
    rw [h]
    rfl
  unfold _assignComponentStatusFromDegenerateIntersections
  simp only [hc, map_outsideRecords_id _ hf]
  rw [← hc]

/-- The step `_removeDegenerateIntersections` leaves a graph whose records carry
no vertex as it is. -/
theorem removeDegenerate_outside (g : PathIntersectionGraph Path Double Point)
    (w1 w2 : Int) (n1 n2 : Nat)
    (hc : g._components = (outsideRecords w1 n1, outsideRecords w2 n2)) :
    _removeDegenerateIntersections g = g := by
  have hf : ∀ c : PathData, c.xlist = [] →
      ({ c with xlist := c.xlist.filter fun i => !g.isKiss i } : PathData) = c := by
    intro c h
    cases c
    simp only at h
    subst h
    rfl
  unfold _removeDegenerateIntersections
  simp only [hc, map_outsideRecords_id _ hf]
  rw [← hc]

/-- The constructor, run on operands for which the solver finds no crossing and
the winding test places every contour outside the other operand, leaves the
graph without vertices and with every contour record `OUTSIDE`. -/
theorem constructorBody_builtFromDisjoint (geom : Geometry Path Point) (a b : List Path)
    (precision : Double)
    (hsolve : ∀ pa ∈ a, ∀ pb ∈ b, ∀ sa sb, sa < geom.segmentCount pa →
      sb < geom.segmentCount pb → geom.solve pa sa pb sb precision = [])
    (houtA : ∀ pa ∈ a, geom.inside b (geom.contourSample pa) = false)
    (houtB : ∀ pb ∈ b, geom.inside a (geom.contourSample pb) = false) :
    BuiltFromDisjoint (constructorBody geom a b precision) a b := by
  have hs := solveAll_eq_nil geom a b precision hsolve
  have hxs : (_prepareIntersectionLists geom
      { _pv := (a, b), _xs := [], _components := ([], []), _ulist := [],
        _graph_valid := true, _winding_points := [] } precision).2
      = { _pv := (a, b), _xs := ([] : List (IntersectionVertex Double Point)),
          _components :=
            (contourRecords ([] : List (IntersectionVertex Double Point)) 0 a.length,
              contourRecords ([] : List (IntersectionVertex Double Point)) 1 b.length),
          _ulist := [], _graph_valid := true, _winding_points := [] } := by
    simp only [_prepareIntersectionLists, hs, coalesce]
    rfl
  have h0 := classify_contourRecords_nil geom
    { _pv := (a, b), _xs := ([] : List (IntersectionVertex Double Point)),
      _components :=
        (contourRecords ([] : List (IntersectionVertex Double Point)) 0 a.length,
          contourRecords ([] : List (IntersectionVertex Double Point)) 1 b.length),
      _ulist := [], _graph_valid := true, _winding_points := [] } 0 a b rfl houtA
  have h1 := classify_contourRecords_nil geom
    { _pv := (a, b), _xs := ([] : List (IntersectionVertex Double Point)),
      _components :=
        (contourRecords ([] : List (IntersectionVertex Double Point)) 0 a.length,
          contourRecords ([] : List (IntersectionVertex Double Point)) 1 b.length),
      _ulist := [], _graph_valid := true, _winding_points := [] } 1 b a rfl houtB
  have hc2 : (_assignEdgeWindingParities geom
      { _pv := (a, b), _xs := ([] : List (IntersectionVertex Double Point)),
        _components :=
          (contourRecords ([] : List (IntersectionVertex Double Point)) 0 a.length,
            contourRecords ([] : List (IntersectionVertex Double Point)) 1 b.length),
        _ulist := [], _graph_valid := true, _winding_points := [] } precision)._components
      = (outsideRecords 0 a.length, outsideRecords 1 b.length) := by
    simp only [_assignEdgeWindingParities]
    exact Prod.ext h0 h1
  unfold constructorBody
  simp only [hxs]
  rw [assignComponentStatus_outside _ 0 1 a.length b.length hc2,
    removeDegenerate_outside _ 0 1 a.length b.length hc2]
  exact ⟨rfl, rfl, hc2⟩

end PathIntersectionGraph

/-- C4: for two operands with no geometric overlap (the solver finds no meeting
point on any pair of segments, one per operand, and the winding test places
every contour outside the other operand), the graph the constructor builds from
them has `size()` 0, `getUnion()` is the contours of A followed by those of B,
`getIntersection()` is empty, `getAminusB()` is A, `getBminusA()` is B and
`getXOR()` is the contours of A followed by those of B; this for every
precision, given or omitted. -/
theorem disjoint_operands_results {Path Point : Type} (geom : Geometry Path Point)
    (curves : Curves Path Double) (a b : List Path) (precision : Option Double)
    (hsolve : ∀ pa ∈ a, ∀ pb ∈ b, ∀ sa sb, sa < geom.segmentCount pa →
      sb < geom.segmentCount pb →
      geom.solve pa sa pb sb (PathIntersectionGraph.precisionArgument precision) = [])
    (houtA : ∀ pa ∈ a, geom.inside b (geom.contourSample pa) = false)
    (houtB : ∀ pb ∈ b, geom.inside a (geom.contourSample pb) = false) :
    (PathIntersectionGraph.construct
        (PathIntersectionGraph.constructorBody geom) a b precision).size.1 = 0 ∧
      ((PathIntersectionGraph.construct
        (PathIntersectionGraph.constructorBody geom) a b precision).getUnion curves).1
          = a ++ b ∧
      ((PathIntersectionGraph.construct
        (PathIntersectionGraph.constructorBody geom) a b precision).getIntersection curves).1
          = [] ∧
      ((PathIntersectionGraph.construct
        (PathIntersectionGraph.constructorBody geom) a b precision).getAminusB curves).1
          = a ∧
      ((PathIntersectionGraph.construct
        (PathIntersectionGraph.constructorBody geom) a b precision).getBminusA curves).1
          = b ∧
      ((PathIntersectionGraph.construct
        (PathIntersectionGraph.constructorBody geom) a b precision).getXOR curves).1
          = a ++ b :=
  results_of_builtFromDisjoint curves _ a b
    (PathIntersectionGraph.constructorBody_builtFromDisjoint geom a b
      (PathIntersectionGraph.precisionArgument precision) hsolve houtA houtB)

/-- Witness for C4: operand A with contours `"A1"`, `"A2"` and operand B with
contour `"B1"`, which the example geometry keeps apart (it would not keep
`"B2"` apart from A); the precision is omitted. -/
theorem disjoint_operands_results_witness :
    (PathIntersectionGraph.construct (PathIntersectionGraph.constructorBody exampleGeometry)
        ["A1", "A2"] ["B1"] none).size.1 = 0 ∧
      ((PathIntersectionGraph.construct (PathIntersectionGraph.constructorBody exampleGeometry)
        ["A1", "A2"] ["B1"] none).getUnion exampleCurves).1 = ["A1", "A2"] ++ ["B1"] ∧
      ((PathIntersectionGraph.construct (PathIntersectionGraph.constructorBody exampleGeometry)
        ["A1", "A2"] ["B1"] none).getIntersection exampleCurves).1 = [] ∧
      ((PathIntersectionGraph.construct (PathIntersectionGraph.constructorBody exampleGeometry)
        ["A1", "A2"] ["B1"] none).getAminusB exampleCurves).1 = ["A1", "A2"] ∧
      ((PathIntersectionGraph.construct (PathIntersectionGraph.constructorBody exampleGeometry)
        ["A1", "A2"] ["B1"] none).getBminusA exampleCurves).1 = ["B1"] ∧
      ((PathIntersectionGraph.construct (PathIntersectionGraph.constructorBody exampleGeometry)
        ["A1", "A2"] ["B1"] none).getXOR exampleCurves).1 = ["A1", "A2"] ++ ["B1"] :=
  disjoint_operands_results exampleGeometry exampleCurves ["A1", "A2"] ["B1"] none
    (by
      intro pa _ pb hpb sa sb _ _
      have hb : pb = "B1" := by simpa using hpb
      subst hb
      simp [exampleGeometry])
    (by
      intro pa _
      simp [exampleGeometry])
    (by
      intro pb hpb
      have hb : pb = "B1" := by simpa using hpb
      subst hb
      simp [exampleGeometry])

/-- The tracer on the two overlapping squares of §8.  The union is the outside
edge of B from P to Q followed by the outside edge of A from Q to P; the
intersection is the inside edge of A from P to Q followed by the inside edge of
B from Q to P; A minus B is the inside edge of B walked against its direction
from P to Q followed by the outside edge of A; B minus A is the inside edge of A
followed by the outside edge of B walked against its direction from Q to P.  No
excluded edge is emitted. -/
theorem squares_traces :
    (squaresGraph.getUnion squaresCurves).1 = [[[1, 0, 3], [0, 2, 1]]] ∧
      (squaresGraph.getIntersection squaresCurves).1 = [[[0, 1, 2], [1, 3, 0]]] ∧
      (squaresGraph.getAminusB squaresCurves).1 = [[[9, 1, 3, 0], [0, 2, 1]]] ∧
      (squaresGraph.getBminusA squaresCurves).1 = [[[0, 1, 2], [9, 1, 0, 3]]] ∧
      (squaresGraph.getXOR squaresCurves).1
        = [[[9, 1, 3, 0], [0, 2, 1]], [[0, 1, 2], [9, 1, 0, 3]]] := by
  decide

/-- C5: for every graph, `size()` equals the length of `intersectionPoints(false)`. -/
theorem size_eq_length_intersectionPoints {Path Coord Point : Type}
    (g : PathIntersectionGraph Path Coord Point) :
    g.size.1 = (g.intersectionPoints false).1.length := by
  simp only [PathIntersectionGraph.size, PathIntersectionGraph.intersectionPoints]
  generalize g._components.1 = cs
  induction cs with
  | nil => rfl
  | cons c cs ih =>
    rw [List.map_cons, List.sum_cons, List.flatMap_cons, List.length_append, ih,
      PathIntersectionGraph.length_filterMap_point]

/-- C9: `getUnion()` called a second time, on the graph the first call leaves
behind, returns the same contours; the first call leaves the operands, the
vertex pool, the contour records, the validity flag and the winding points as
they were. -/
theorem getUnion_twice {Path Coord Point : Type} (curves : Curves Path Coord)
    (g : PathIntersectionGraph Path Coord Point) :
    ((g.getUnion curves).2.getUnion curves).1 = (g.getUnion curves).1 ∧
      (g.getUnion curves).2._pv = g._pv ∧ (g.getUnion curves).2._xs = g._xs ∧
      (g.getUnion curves).2._components = g._components ∧
      (g.getUnion curves).2._graph_valid = g._graph_valid ∧
      (g.getUnion curves).2._winding_points = g._winding_points := by
  refine ⟨?_, rfl, rfl, rfl, rfl, rfl⟩
  calc ((g.getUnion curves).2.getUnion curves).1
      = g._handleNonintersectingPaths
          (g._handleNonintersectingPaths
            (PathIntersectionGraph._getResult curves
              { g with _ulist := (g._getResult curves false false).2._ulist } false false).1
            0 false)
          1 false := rfl
    _ = g._handleNonintersectingPaths
          (g._handleNonintersectingPaths (g._getResult curves false false).1 0 false)
          1 false := by rw [PathIntersectionGraph.getResult_ulist]
    _ = (g.getUnion curves).1 := rfl

/-- C10: `valid()` returns the stored flag and leaves the graph as it was, and the
flag read after any query (`getUnion`, `getIntersection`, `getAminusB`,
`getBminusA`, `getXOR`, `size`, `intersectionPoints`, `windingPoints`) is the
flag read before it. -/
theorem valid_fixed {Path Coord Point : Type} (curves : Curves Path Coord)
    (g : PathIntersectionGraph Path Coord Point) :
    g.valid = (g._graph_valid, g) ∧
      (g.getUnion curves).2.valid.1 = g.valid.1 ∧
      (g.getIntersection curves).2.valid.1 = g.valid.1 ∧
      (g.getAminusB curves).2.valid.1 = g.valid.1 ∧
      (g.getBminusA curves).2.valid.1 = g.valid.1 ∧
      (g.getXOR curves).2.valid.1 = g.valid.1 ∧
      g.size.2.valid.1 = g.valid.1 ∧
      (∀ defective : Bool, (g.intersectionPoints defective).2.valid.1 = g.valid.1) ∧
      g.windingPoints.2.valid.1 = g.valid.1 :=
  ⟨rfl, rfl, rfl, rfl, rfl, rfl, rfl, fun _ => rfl, rfl⟩

/-! ## Claims about the constructor and `EPSILON` -/

/-- The mantissa and exponent of `EPSILON`: `0x1.0c6f7a0b5ed8dp-20`. -/
theorem EPSILON_eq : EPSILON = { mantissa := 4722366482869645, exponent := -72 } := by
  decide

/-- The rational value of `EPSILON`. -/
theorem EPSILON_toRat : EPSILON.toRat = 4722366482869645 / 2 ^ 72 := by
  rw [EPSILON_eq]
  simp [Double.toRat]

/-- An argument given to the constructor is the precision it runs with. -/
theorem PathIntersectionGraph.precisionArgument_some (p : Double) :
    PathIntersectionGraph.precisionArgument (some p) = p := rfl

/-- C11: when the precision argument is omitted, the constructor of
`PathIntersectionGraph` runs with precision `EPSILON`; and `EPSILON` is the
`double` written `1e-6`, a literal that denotes 1/1000000: it is the rounded
quotient of 1 by 1000000, a normal `double`, less than half a unit in the last
place (`2^-73`) away from 1/1000000. -/
theorem default_precision_is_EPSILON {Path Point : Type}
    (body : List Path → List Path → Double → PathIntersectionGraph Path Double Point)
    (a b : List Path) :
    PathIntersectionGraph.precisionArgument none = EPSILON ∧
      PathIntersectionGraph.construct body a b none = body a b EPSILON ∧
      EPSILON = Double.ofDecimal 1 (-6) ∧
      decimalValue 1 (-6) = 1 / 1000000 ∧
      EPSILON = Double.roundRatio 1 1000000 ∧
      EPSILON.isNormal = true ∧
      |EPSILON.toRat - 1 / 1000000| < 1 / 2 ^ 73 := by
  refine ⟨rfl, rfl, rfl, ?_, by decide, by decide, ?_⟩
  · simp [decimalValue]
    norm_num
  · rw [EPSILON_toRat, abs_lt]
    constructor <;> norm_num

end Geom
